import Mathlib

/-!
# BMI endpoint: the handler `calculateBMI` and the labelling `bmiMessage`

A shallow embedding of `main.go`.

* A `float64` is modelled by `F64`: a finite value is the rational number it denotes, and
  there are the two infinities and NaN.  Arithmetic (`F64.div`, `F64.mul`) computes the exact
  rational result and rounds it to the nearest binary64 value, ties to even, with gradual
  underflow and overflow to an infinity (`F64.round`).  A constant of the source text is the
  binary64 value nearest to its decimal (`float64`).  The two zeros are identified: they
  compare equal, the handler rejects a zero input, and the only divisor that can be zero is
  a square, which is `+0`.
* The request fields and a number decoded from JSON are finite, so they are rationals.  The
  model does not check that such a rational is a binary64 value; the statements below hold for
  every rational input, and each concrete input used is a binary64 value.
* The libraries the handler calls are not part of the repository.  The text that
  `fmt.Sprintf("%v", x)` and `json.Marshal` give a finite number and the decoding done by
  `json.Unmarshal` are parameters (`Env`); `json.Marshal` fails exactly on a value that is
  not finite.  The Redis server is an explicit keyed store with expiry (`Store`), and the
  condition of the connection during one request (`Link`) says whether `Get` / `Set` fail.
* `log.Error` appends a line to `World.log`.
-/

namespace BMI

/-! ## Binary64 arithmetic -/

/-- A `float64`: a finite value (the rational it denotes), an infinity, or NaN. -/
inductive F64 where
  | fin (q : ℚ)
  | inf (negative : Bool)
  | nan
deriving DecidableEq, Repr

/-- Number of binary digits of `n`, counted with `fuel` halvings at most. -/
def bitsAux : ℕ → ℕ → ℕ
  | 0, _ => 0
  | fuel + 1, n => if n = 0 then 0 else bitsAux fuel (n / 2) + 1

/-- Number of binary digits of `n`: `0` for `0`, otherwise `⌊log₂ n⌋ + 1`. -/
def bits (n : ℕ) : ℕ := bitsAux n n

/-- The integer `⌊log₂ (n / d)⌋`, for positive `n` and `d`: the difference of the digit
counts, lowered by one when `2` to that power exceeds `n / d`. -/
def ilog2 (n d : ℕ) : ℤ :=
  let e : ℤ := (bits n : ℤ) - (bits d : ℤ)
  if (if 0 ≤ e then d * 2 ^ e.toNat ≤ n else d ≤ n * 2 ^ (-e).toNat) then e else e - 1

/-- The integer nearest to `n / d`; of two equally near integers the even one. -/
def roundHalfEven (n d : ℕ) : ℕ :=
  let f := n / d
  let r := n % d
  if 2 * r < d then f else if d < 2 * r then f + 1 else if f % 2 = 0 then f else f + 1

/-- The binary64 magnitude nearest to the positive rational `n / d`, or `none` on overflow.
The unit in the last place is `2 ^ s` with `s = max ⌊log₂ (n / d)⌋ (-1022) - 52` (53
significant bits, least exponent `-1022`); the result is `2 ^ s` times the integer nearest
to `(n / d) / 2 ^ s`, and it overflows when that reaches `2 ^ 1024`. -/
def roundMagnitude (n d : ℕ) : Option ℚ :=
  let s : ℤ := max (ilog2 n d) (-1022) - 52
  if 0 ≤ s then
    let m := roundHalfEven n (d * 2 ^ s.toNat) * 2 ^ s.toNat
    if 2 ^ 1024 ≤ m then none else some (m : ℚ)
  else some (mkRat (roundHalfEven (n * 2 ^ (-s).toNat) d) (2 ^ (-s).toNat))

/-- Rounding of an exact result to `float64`: round to nearest, ties to even. -/
def F64.round (q : ℚ) : F64 :=
  if q = 0 then .fin 0
  else
    match roundMagnitude q.num.natAbs q.den with
    | some m => .fin (if q < 0 then -m else m)
    | none => .inf (decide (q < 0))

/-- The operator `*` on `float64`. -/
def F64.mul : F64 → F64 → F64
  | .fin a, .fin b => F64.round (a * b)
  | .fin a, .inf t => if a = 0 then .nan else .inf (xor (decide (a < 0)) t)
  | .inf s, .fin b => if b = 0 then .nan else .inf (xor s (decide (b < 0)))
  | .inf s, .inf t => .inf (xor s t)
  | _, _ => .nan

/-- The operator `/` on `float64`; a zero divisor is taken as `+0`. -/
def F64.div : F64 → F64 → F64
  | .fin a, .fin b =>
      if b = 0 then (if a = 0 then .nan else .inf (decide (a < 0))) else F64.round (a / b)
  | .fin _, .inf _ => .fin 0
  | .inf s, .fin b => .inf (xor s (decide (b < 0)))
  | _, _ => .nan

/-- The `float64` value of a numeric constant of the source text (all of them are in range). -/
def float64 (q : ℚ) : ℚ :=
  match F64.round q with
  | .fin r => r
  | _ => 0

/-! ## Data model -/

/-- The struct `BMIRequest` (`main.go` lines 39-42). -/
structure BMIRequest where
  Weight : ℚ
  Height : ℚ
deriving DecidableEq, Repr

/-- What the framework's body decoder finds in the request: either nothing it can decode,
or a JSON object in which each of the two fields is present or absent. -/
inductive Payload where
  | undecodable (err : String)
  | object (weight height : Option ℚ)
deriving DecidableEq, Repr

/-- Model of `c.BodyParser(&reqBody)`: a decoding error, or the struct with the fields that
are present overwritten and the absent ones left as they were. -/
def BodyParser (c : Payload) (out : BMIRequest) : Except String BMIRequest :=
  match c with
  | .undecodable err => .error err
  | .object weight height =>
      .ok { Weight := weight.getD out.Weight, Height := height.getD out.Height }

/-- The dynamic value `json.Unmarshal` stores into an `interface{}`.  Only the dynamic type
and, for a number, the value are inspected by the handler; arrays and objects keep their
source text. -/
inductive JSONValue where
  | number (v : ℚ)
  | string (s : String)
  | bool (b : Bool)
  | null
  | array (raw : String)
  | object (raw : String)
deriving DecidableEq, Repr

/-- The library functions the handler calls on numbers and strings. -/
structure Env where
  /-- The formatting verb `%v` applied to a finite `float64`. -/
  Sprint : ℚ → String
  /-- The text `json.Marshal` gives a finite `float64`. -/
  MarshalText : ℚ → String
  /-- The function `json.Unmarshal` into an `interface{}`. -/
  Unmarshal : String → Except String JSONValue

/-- The function `json.Marshal` on a `float64`: the text of a finite value, and an
`UnsupportedValueError` for an infinity or NaN. -/
def Env.Marshal (env : Env) (v : F64) : Except String String :=
  match v with
  | .fin q => .ok (env.MarshalText q)
  | .inf false => .error "json: unsupported value: +Inf"
  | .inf true => .error "json: unsupported value: -Inf"
  | .nan => .error "json: unsupported value: NaN"

/-! ## The cache -/

/-- A stored string and the instant (in seconds) at which it expires. -/
structure Entry where
  value : String
  expireAt : ℕ
deriving DecidableEq, Repr

/-- Errors of a Redis command: `Nil` (no such key) or a failed round trip. -/
inductive RedisError where
  | Nil
  | connection (msg : String)
deriving DecidableEq, Repr

/-- Condition of the connection while one request is handled: the clock (seconds) and
whether the `Get` and the `Set` round trips fail. -/
structure Link where
  now : ℕ
  getFails : Bool
  setFails : Bool
deriving DecidableEq, Repr

/-- Contents of the key-value store; the first pair with a given key is the live one. -/
abbrev Store := List (String × Entry)

/-- Model of `redis_client.Get(key).Result()`. -/
def Store.Get (s : Store) (link : Link) (key : String) : Except RedisError String :=
  if link.getFails then .error (.connection "get")
  else
    match s.lookup key with
    | some e => if link.now < e.expireAt then .ok e.value else .error .Nil
    | none => .error .Nil

/-- Model of `redis_client.Set(key, value, ttl)`: the new contents and the command's error. -/
def Store.Set (s : Store) (link : Link) (key value : String) (ttl : ℕ) :
    Store × Option RedisError :=
  if link.setFails then (s, some (.connection "set"))
  else ((key, { value := value, expireAt := link.now + ttl }) :: s, none)

/-- Everything the handler can change: the store behind `redis_client` and the log. -/
structure World where
  redis_client : Store
  log : List String
deriving DecidableEq, Repr

/-- Model of `log.Error`. -/
def World.logError (w : World) (line : String) : World :=
  { w with log := w.log ++ [line] }

/-! ## Responses -/

/-- The two shapes of `fiber.Map` the handler sends. -/
inductive Reply where
  | error (msg : String)
  | bmi (BMI : ℚ) (message : String)
deriving DecidableEq, Repr

/-- Result of running the handler: a JSON response with its status, the text response of
the framework's error handler when the handler returns an error, or a run-time panic. -/
inductive Outcome where
  | json (status : ℕ) (body : Reply)
  | failed (status : ℕ) (msg : String)
  | crashed
deriving DecidableEq, Repr

/-- Status code of a response, if there is one. -/
def Outcome.status : Outcome → Option ℕ
  | .json status _ => some status
  | .failed status _ => some status
  | .crashed => none

/-- The constant `fiber.StatusBadRequest`. -/
def StatusBadRequest : ℕ := 400

/-- The constant `fiber.StatusOK`. -/
def StatusOK : ℕ := 200

/-- The constant `fiber.StatusInternalServerError`. -/
def StatusInternalServerError : ℕ := 500

/-! ## The program -/

/-- The function `bmiMessage` (`main.go` lines 216-233) on a finite value; each constant is
the `float64` nearest to its decimal. -/
def bmiMessage (bmi : ℚ) : String :=
  if bmi < float64 18.5 then "Underweight"
  else if bmi ≥ float64 18.5 ∧ bmi < float64 24.9 then "Normal weight"
  else if bmi ≥ float64 25 ∧ bmi < float64 29.9 then "Overweight"
  else if bmi ≥ float64 30 ∧ bmi < float64 34.9 then "Obesity class I"
  else if bmi ≥ float64 35 ∧ bmi < float64 39.9 then "Obesity class II"
  else if bmi ≥ float64 40 then "Obesity class III"
  else "Invalid BMI"

/-- The cache key, `fmt.Sprintf("bmi:%v:%v", reqBody.Height, reqBody.Weight)` (line 191). -/
def cacheKey (env : Env) (reqBody : BMIRequest) : String :=
  "bmi:" ++ env.Sprint reqBody.Height ++ ":" ++ env.Sprint reqBody.Weight

/-- The expiration passed to `Set`, `time.Second*500`, in seconds (line 206). -/
def cacheTTL : ℕ := 500

/-- Where control stands after lines 169-201: the handler has returned (or panicked), or it
arrives at the computation of line 202 with the validated request and its key. -/
inductive Stage where
  | done (w : World) (out : Outcome)
  | compute (w : World) (reqBody : BMIRequest) (key : String)
deriving DecidableEq, Repr

/-- The zero value `BMIRequest{}` with which `reqBody` starts (line 169). -/
def zeroRequest : BMIRequest := { Weight := 0, Height := 0 }

/-- Lines 191-201 of `calculateBMI`: the cache key and the cache lookup, for a request that
passed the zero checks. -/
def cacheLookup (env : Env) (link : Link) (w : World) (reqBody : BMIRequest) : Stage :=
  let key := cacheKey env reqBody
  match w.redis_client.Get link key with
  | .ok res =>
      if res ≠ "" then
        match env.Unmarshal res with
        | .ok redis_data =>
            -- the assertion `redis_data.(float64)` panics unless the dynamic type is float64
            match redis_data with
            | .number v => .done w (.json StatusOK (.bmi v (bmiMessage v)))
            | _ => .done w .crashed
        | .error _ => .compute w reqBody key
      else .compute w reqBody key
  | .error _ => .compute w reqBody key

/-- Lines 169-201 of `calculateBMI`: decoding, the two zero checks, and the cache lookup. -/
def beforeCompute (env : Env) (link : Link) (c : Payload) (w : World) : Stage :=
  match BodyParser c zeroRequest with
  | .error err =>
      .done (w.logError ("invalid request" ++ err))
        (.json StatusBadRequest (.error "Invalid input data"))
  | .ok reqBody =>
      if reqBody.Height = 0 then
        .done (w.logError "invalid height") (.json StatusBadRequest (.error "Invalid height"))
      else if reqBody.Weight = 0 then
        .done (w.logError "invalid weight") (.json StatusBadRequest (.error "Invalid weight"))
      else cacheLookup env link w reqBody

/-- Lines 202-203 of `calculateBMI`: `heightMeter := reqBody.Height / 100` and
`respBMI := reqBody.Weight / (heightMeter * heightMeter)`, in `float64` arithmetic. -/
def respBMI (reqBody : BMIRequest) : F64 :=
  let heightMeter := F64.div (.fin reqBody.Height) (.fin (float64 100))
  F64.div (.fin reqBody.Weight) (F64.mul heightMeter heightMeter)

/-- Lines 210-213, `c.Status(status).JSON(fiber.Map{"BMI": bmi, "message": bmiMessage(bmi)})`:
the map is encoded with `json.Marshal`, which rejects a value that is not finite; the handler
then returns that error and the framework's default error handler answers 500 with its
text. -/
def sendBMI (status : ℕ) (bmi : F64) : Outcome :=
  match bmi with
  | .fin v => .json status (.bmi v (bmiMessage v))
  | .inf false => .failed StatusInternalServerError "json: unsupported value: +Inf"
  | .inf true => .failed StatusInternalServerError "json: unsupported value: -Inf"
  | .nan => .failed StatusInternalServerError "json: unsupported value: NaN"

/-- Lines 202-213 of `calculateBMI`: the formula, the cache write, the response. -/
def computeAndStore (env : Env) (link : Link) (w : World) (reqBody : BMIRequest)
    (key : String) : World × Outcome :=
  let respBMI := respBMI reqBody
  let w1 : World :=
    match env.Marshal respBMI with
    | .ok data => { w with redis_client := (w.redis_client.Set link key data cacheTTL).1 }
    | .error err => w.logError err
  (w1, sendBMI StatusOK respBMI)

/-- The handler `calculateBMI` (`main.go` lines 168-214). -/
def calculateBMI (env : Env) (link : Link) (c : Payload) (w : World) : World × Outcome :=
  match beforeCompute env link c w with
  | .done w1 out => (w1, out)
  | .compute w1 reqBody key => computeAndStore env link w1 reqBody key

/-! ## A reference instance of the library functions -/

/-- Value of a non-empty string of decimal digits. -/
def readNat (cs : List Char) : Option ℕ :=
  if cs = [] then none
  else
    cs.foldl
      (fun acc c => acc.bind fun n => if c.isDigit then some (10 * n + (c.toNat - 48)) else none)
      (some 0)

/-- Value of an optionally signed string of decimal digits. -/
def readInt (cs : List Char) : Option ℤ :=
  match cs with
  | '-' :: rest => (readNat rest).map fun n => -(n : ℤ)
  | _ => (readNat cs).map fun n => (n : ℤ)

/-- Value of `n` or `n/d` (with `d` non-zero). -/
def readNumber (cs : List Char) : Option ℚ :=
  match cs.span (· ≠ '/') with
  | (n, []) => (readInt n).map fun z => (z : ℚ)
  | (n, _ :: d) =>
      match readInt n, readNat d with
      | some z, some m => if m = 0 then none else some ((z : ℚ) / m)
      | _, _ => none

/-- Text of a rational: an integer as its decimal digits, any other value as `n/d` in lowest
terms. -/
def writeNumber (q : ℚ) : String :=
  if q.den = 1 then toString q.num else toString q.num ++ "/" ++ toString q.den

/-- First and last character of the three delimited forms of JSON text: a quoted string
(code point 34), an array (91, 93) and an object (123, 125). -/
def delimiters : List (Char × Char) :=
  [(Char.ofNat 34, Char.ofNat 34), (Char.ofNat 91, Char.ofNat 93),
    (Char.ofNat 123, Char.ofNat 125)]

/-- A small reader of JSON text: the three literals, a quoted string (without escapes), an
array or object recognised by its brackets, or a number as written by `writeNumber`. -/
def readJSON (s : String) : Except String JSONValue :=
  if s = "null" then .ok .null
  else if s = "true" then .ok (.bool true)
  else if s = "false" then .ok (.bool false)
  else
    match s.data with
    | [] => .error "unexpected end of JSON input"
    | c :: rest =>
        match delimiters.lookup c with
        | some close =>
            if rest.getLast? = some close then
              if c = Char.ofNat 34 then .ok (.string (String.mk rest.dropLast))
              else if c = Char.ofNat 91 then .ok (.array s)
              else .ok (.object s)
            else .error "unexpected end of JSON input"
        | none =>
            match readNumber (c :: rest) with
            | some q => .ok (.number q)
            | none => .error "invalid character"

/-- An exact codec over the rationals, standing in for `fmt` and `encoding/json`; it writes
an integer as Go does. -/
def refEnv : Env where
  Sprint := writeNumber
  MarshalText := writeNumber
  Unmarshal := readJSON

/-- Value of a string of decimal digits, read from the left. -/
def digitsValue (cs : List Char) : ℕ :=
  cs.foldl (fun acc c => 10 * acc + (c.toNat - 48)) 0

/-! ## Auxiliary facts -/

theorem beforeCompute_valid (env : Env) (link : Link) (c : Payload) (w : World)
    (reqBody : BMIRequest) (hparse : BodyParser c zeroRequest = .ok reqBody)
    (hh : reqBody.Height ≠ 0) (hw : reqBody.Weight ≠ 0) :
    beforeCompute env link c w = cacheLookup env link w reqBody := by
  simp only [beforeCompute, hparse, hh, hw, if_false]

theorem cacheLookup_noValue (env : Env) (link : Link) (w : World) (reqBody : BMIRequest)
    (hmiss : ∀ res, w.redis_client.Get link (cacheKey env reqBody) = .ok res → res = "") :
    cacheLookup env link w reqBody = .compute w reqBody (cacheKey env reqBody) := by
  cases hg : w.redis_client.Get link (cacheKey env reqBody) with
  | error e => simp [cacheLookup, hg]
  | ok res => simp [cacheLookup, hg, hmiss res hg]

theorem cacheLookup_number (env : Env) (link : Link) (w : World) (reqBody : BMIRequest)
    (res : String) (v : ℚ)
    (hget : w.redis_client.Get link (cacheKey env reqBody) = .ok res) (hne : res ≠ "")
    (hnum : env.Unmarshal res = .ok (.number v)) :
    cacheLookup env link w reqBody = .done w (.json StatusOK (.bmi v (bmiMessage v))) := by
  simp [cacheLookup, hget, hne, hnum]

theorem cacheLookup_malformed (env : Env) (link : Link) (w : World) (reqBody : BMIRequest)
    (res err : String)
    (hget : w.redis_client.Get link (cacheKey env reqBody) = .ok res)
    (hbad : env.Unmarshal res = .error err) :
    cacheLookup env link w reqBody = .compute w reqBody (cacheKey env reqBody) := by
  by_cases hne : res = "" <;> simp [cacheLookup, hget, hne, hbad]

theorem cacheLookup_notNumber (env : Env) (link : Link) (w : World) (reqBody : BMIRequest)
    (res : String) (redis_data : JSONValue)
    (hget : w.redis_client.Get link (cacheKey env reqBody) = .ok res) (hne : res ≠ "")
    (hval : env.Unmarshal res = .ok redis_data) (hnot : ∀ v, redis_data ≠ .number v) :
    cacheLookup env link w reqBody = .done w .crashed := by
  cases redis_data with
  | number v => exact absurd rfl (hnot v)
  | _ => simp [cacheLookup, hget, hne, hval]

theorem calculateBMI_of_compute (env : Env) (link : Link) (c : Payload) (w w1 : World)
    (reqBody : BMIRequest) (key : String)
    (h : beforeCompute env link c w = .compute w1 reqBody key) :
    calculateBMI env link c w = computeAndStore env link w1 reqBody key := by
  simp only [calculateBMI, h]

theorem calculateBMI_of_done (env : Env) (link : Link) (c : Payload) (w w1 : World)
    (out : Outcome) (h : beforeCompute env link c w = .done w1 out) :
    calculateBMI env link c w = (w1, out) := by
  simp only [calculateBMI, h]

theorem Get_nil (link : Link) (key : String) :
    ∀ res, Store.Get [] link key = .ok res → res = "" := by
  intro res h
  unfold Store.Get at h
  split_ifs at h
  simp at h

theorem cacheLookup_compute (env : Env) (link : Link) (w w1 : World) (r reqBody : BMIRequest)
    (key : String) (h : cacheLookup env link w r = .compute w1 reqBody key) :
    w1 = w ∧ reqBody = r ∧ key = cacheKey env r := by
  revert h
  cases hg : w.redis_client.Get link (cacheKey env r) with
  | error e =>
    simp only [cacheLookup, hg, Stage.compute.injEq]
    rintro ⟨a, b, c⟩
    exact ⟨a.symm, b.symm, c.symm⟩
  | ok res =>
    by_cases hne : res = ""
    · simp only [cacheLookup, hg, hne, Stage.compute.injEq, ne_eq, not_true_eq_false, if_false]
      rintro ⟨a, b, c⟩
      exact ⟨a.symm, b.symm, c.symm⟩
    · cases hu : env.Unmarshal res with
      | error e =>
        simp only [cacheLookup, hg, hu, hne, Stage.compute.injEq, ne_eq, not_false_eq_true,
          if_true]
        rintro ⟨a, b, c⟩
        exact ⟨a.symm, b.symm, c.symm⟩
      | ok v => cases v <;> simp [cacheLookup, hg, hu, hne]

theorem beforeCompute_compute (env : Env) (link : Link) (c : Payload) (w w1 : World)
    (reqBody : BMIRequest) (key : String)
    (h : beforeCompute env link c w = .compute w1 reqBody key) :
    BodyParser c zeroRequest = .ok reqBody ∧ reqBody.Height ≠ 0 ∧ reqBody.Weight ≠ 0 ∧
      w1 = w ∧ key = cacheKey env reqBody := by
  unfold beforeCompute at h
  cases hparse : BodyParser c zeroRequest with
  | error err => simp [hparse] at h
  | ok r =>
    by_cases hh : r.Height = 0
    · simp [hparse, hh] at h
    · by_cases hw : r.Weight = 0
      · simp [hparse, hh, hw] at h
      · simp only [hparse, hh, hw, if_false] at h
        obtain ⟨e1, e2, e3⟩ := cacheLookup_compute env link w w1 r reqBody key h
        subst e2
        exact ⟨rfl, hh, hw, e1, e3⟩

theorem roundHalfEven_nearest (n d : ℕ) (hd : 0 < d) :
    2 * |(n : ℤ) - d * roundHalfEven n d| ≤ d := by
  have h : (d : ℤ) * (n / d : ℕ) + (n % d : ℕ) = n := by exact_mod_cast Nat.div_add_mod n d
  have hr : ((n % d : ℕ) : ℤ) < d := by exact_mod_cast Nat.mod_lt n hd
  have hr0 : (0 : ℤ) ≤ (n % d : ℕ) := Int.natCast_nonneg _
  unfold roundHalfEven
  simp only
  split_ifs with h1 h2 h3
  · have h1' : 2 * ((n % d : ℕ) : ℤ) < d := by exact_mod_cast h1
    rw [abs_of_nonneg (by linarith)]
    linarith
  · have h2' : (d : ℤ) < 2 * (n % d : ℕ) := by exact_mod_cast h2
    rw [Nat.cast_add, Nat.cast_one]
    rw [abs_of_nonpos (by linarith)]
    linarith
  · have h1' : (d : ℤ) ≤ 2 * (n % d : ℕ) := by exact_mod_cast not_lt.mp h1
    have h2' : 2 * ((n % d : ℕ) : ℤ) ≤ d := by exact_mod_cast not_lt.mp h2
    rw [abs_of_nonneg (by linarith)]
    linarith
  · have h1' : (d : ℤ) ≤ 2 * (n % d : ℕ) := by exact_mod_cast not_lt.mp h1
    have h2' : 2 * ((n % d : ℕ) : ℤ) ≤ d := by exact_mod_cast not_lt.mp h2
    rw [Nat.cast_add, Nat.cast_one]
    rw [abs_of_nonpos (by linarith)]
    linarith

theorem bits_spec_small : bits 0 = 0 ∧ bits 1 = 1 ∧ bits 255 = 8 ∧ bits 256 = 9 := by decide

theorem F64_round_samples :
    F64.round 0.1 = .fin (3602879701896397 / 36028797018963968) ∧
      F64.round (1 / 3) = .fin (6004799503160661 / 18014398509481984) ∧
      F64.round (1 / 2 ^ 1075) = .fin 0 ∧
      F64.round (3 / 2 ^ 1075) = .fin (1 / 2 ^ 1073) ∧
      F64.round (2 ^ 1024 - 2 ^ 971) = .fin (2 ^ 1024 - 2 ^ 971) ∧
      F64.round (2 ^ 1024 - 2 ^ 970 - 1) = .fin (2 ^ 1024 - 2 ^ 971) ∧
      F64.round (2 ^ 1024 - 2 ^ 970) = .inf false ∧
      F64.round (-(2 ^ 1024)) = .inf true := by
  decide!

theorem float64_18_5 : float64 18.5 = 18.5 := by decide!

theorem float64_24_9 : float64 24.9 = 3504363460047667 / 140737488355328 := by decide!

theorem float64_25 : float64 25 = 25 := by decide!

theorem float64_29_9 : float64 29.9 = 4208050901824307 / 140737488355328 := by decide!

theorem float64_30 : float64 30 = 30 := by decide!

theorem float64_34_9 : float64 34.9 = 4911738343600947 / 140737488355328 := by decide!

theorem float64_35 : float64 35 = 35 := by decide!

theorem float64_39_9 : float64 39.9 = 5615425785377587 / 140737488355328 := by decide!

theorem float64_40 : float64 40 = 40 := by decide!

theorem computeAndStore_outcome (env : Env) (link : Link) (w : World) (reqBody : BMIRequest)
    (key : String) :
    (computeAndStore env link w reqBody key).2 = sendBMI StatusOK (respBMI reqBody) := rfl

theorem computeAndStore_finite (env : Env) (link : Link) (w : World) (reqBody : BMIRequest)
    (key : String) (v : ℚ) (hfin : respBMI reqBody = .fin v) :
    (computeAndStore env link w reqBody key).2 = .json 200 (.bmi v (bmiMessage v)) := by
  rw [computeAndStore_outcome, hfin]
  rfl

theorem sendBMI_status (status : ℕ) (bmi : F64) :
    (sendBMI status bmi).status = some status ∨ (sendBMI status bmi).status = some 500 := by
  cases bmi with
  | fin v => exact Or.inl rfl
  | inf s => cases s <;> exact Or.inr rfl
  | nan => exact Or.inr rfl

theorem cacheLookup_status (env : Env) (link : Link) (w : World) (reqBody : BMIRequest) :
    (match cacheLookup env link w reqBody with
      | .done w1 out => (w1, out)
      | .compute w1 r key => computeAndStore env link w1 r key).2.status ≠ some 400 := by
  have hsend : ∀ r key, (computeAndStore env link w r key).2.status ≠ some 400 := by
    intro r key
    rw [computeAndStore_outcome]
    rcases sendBMI_status StatusOK (respBMI r) with h | h <;> rw [h] <;> decide
  cases hg : w.redis_client.Get link (cacheKey env reqBody) with
  | error e => simpa [cacheLookup, hg] using hsend _ _
  | ok res =>
    by_cases hne : res = ""
    · simpa [cacheLookup, hg, hne] using hsend _ _
    · cases hu : env.Unmarshal res with
      | error e => simpa [cacheLookup, hg, hu, hne] using hsend _ _
      | ok v => cases v <;> simp [cacheLookup, hg, hu, hne, Outcome.status, StatusOK]

theorem calculateBMI_store (env : Env) (link : Link) (c : Payload) (w : World)
    (reqBody : BMIRequest) (hparse : BodyParser c zeroRequest = .ok reqBody)
    (hh : reqBody.Height ≠ 0) (hw : reqBody.Weight ≠ 0) :
    (calculateBMI env link c w).1.redis_client = w.redis_client ∨
      ∃ e, (calculateBMI env link c w).1.redis_client =
        (cacheKey env reqBody, e) :: w.redis_client := by
  have hcomp : ∀ key, key = cacheKey env reqBody →
      (computeAndStore env link w reqBody key).1.redis_client = w.redis_client ∨
        ∃ e, (computeAndStore env link w reqBody key).1.redis_client =
          (cacheKey env reqBody, e) :: w.redis_client := by
    intro key hk
    subst hk
    cases hm : env.Marshal (respBMI reqBody) with
    | error err => left; simp [computeAndStore, hm, World.logError]
    | ok data =>
      cases hs : link.setFails with
      | true => left; simp [computeAndStore, hm, Store.Set, hs]
      | false =>
        right
        exact ⟨{ value := data, expireAt := link.now + cacheTTL }, by
          simp [computeAndStore, hm, Store.Set, hs]⟩
  cases hb : beforeCompute env link c w with
  | done w1 out =>
    rw [calculateBMI_of_done env link c w w1 out hb]
    rw [beforeCompute_valid env link c w reqBody hparse hh hw] at hb
    left
    revert hb
    cases hg : w.redis_client.Get link (cacheKey env reqBody) with
    | error e => simp [cacheLookup, hg]
    | ok res =>
      by_cases hne : res = ""
      · simp [cacheLookup, hg, hne]
      · cases hu : env.Unmarshal res with
        | error e => simp [cacheLookup, hg, hu, hne]
        | ok v =>
          cases v <;> simp only [cacheLookup, hg, hu, hne, ne_eq, not_false_eq_true, if_true,
            Stage.done.injEq] <;> rintro ⟨rfl, -⟩ <;> rfl
  | compute w1 r key =>
    rw [calculateBMI_of_compute env link c w w1 r key hb]
    obtain ⟨hp, -, -, e1, e2⟩ := beforeCompute_compute env link c w w1 r key hb
    have hr : r = reqBody := by
      rw [hparse] at hp
      exact (Except.ok.inj hp).symm
    subst hr
    subst e1
    exact hcomp key e2

theorem digitChar_value (k : ℕ) (hk : k < 10) : (Nat.digitChar k).toNat - 48 = k := by
  interval_cases k <;> rfl

theorem digitChar_isDigit (k : ℕ) (hk : k < 10) : (Nat.digitChar k).isDigit = true := by
  interval_cases k <;> rfl

theorem toDigitsCore_append (fuel n : ℕ) (ds : List Char) :
    Nat.toDigitsCore 10 fuel n ds = Nat.toDigitsCore 10 fuel n [] ++ ds := by
  induction fuel generalizing n ds with
  | zero => simp [Nat.toDigitsCore]
  | succ fuel ih =>
    simp only [Nat.toDigitsCore]
    split_ifs with h
    · simp
    · rw [ih (n / 10) (Nat.digitChar (n % 10) :: ds), ih (n / 10) [Nat.digitChar (n % 10)]]
      simp

theorem digitsValue_append (l : List Char) (c : Char) :
    digitsValue (l ++ [c]) = 10 * digitsValue l + (c.toNat - 48) := by
  simp [digitsValue, List.foldl_append]

theorem digitsValue_toDigitsCore (fuel n : ℕ) (h : n < fuel) :
    digitsValue (Nat.toDigitsCore 10 fuel n []) = n := by
  induction fuel generalizing n with
  | zero => omega
  | succ fuel ih =>
    simp only [Nat.toDigitsCore]
    split_ifs with h0
    · have hn : n < 10 := by omega
      simp [digitsValue, digitChar_value (n % 10) (Nat.mod_lt _ (by norm_num))]
      omega
    · rw [toDigitsCore_append, digitsValue_append, ih (n / 10) (by omega),
        digitChar_value (n % 10) (Nat.mod_lt _ (by norm_num))]
      omega

theorem toDigitsCore_isDigit (fuel n : ℕ) :
    ∀ c ∈ Nat.toDigitsCore 10 fuel n [], c.isDigit = true := by
  induction fuel generalizing n with
  | zero => simp [Nat.toDigitsCore]
  | succ fuel ih =>
    intro c hc
    simp only [Nat.toDigitsCore] at hc
    split_ifs at hc with h0
    · simp only [List.mem_singleton] at hc
      rw [hc]
      exact digitChar_isDigit _ (Nat.mod_lt _ (by norm_num))
    · rw [toDigitsCore_append] at hc
      rcases List.mem_append.mp hc with h | h
      · exact ih _ c h
      · simp only [List.mem_singleton] at h
        rw [h]
        exact digitChar_isDigit _ (Nat.mod_lt _ (by norm_num))

theorem natRepr_data (n : ℕ) : (toString n).data = Nat.toDigitsCore 10 (n + 1) n [] := rfl

theorem natRepr_injective : Function.Injective fun n : ℕ => (toString n).data := by
  intro a b h
  have ha := digitsValue_toDigitsCore (a + 1) a (by omega)
  have hb := digitsValue_toDigitsCore (b + 1) b (by omega)
  simp only [natRepr_data] at h
  rw [← ha, ← hb, h]

theorem natRepr_isDigit (n : ℕ) : ∀ c ∈ (toString n).data, c.isDigit = true :=
  toDigitsCore_isDigit (n + 1) n

theorem intRepr_data_neg (m : ℕ) :
    (toString (Int.negSucc m)).data = '-' :: (toString (m + 1)).data := rfl

theorem intRepr_data_nat (m : ℕ) : (toString (Int.ofNat m)).data = (toString m).data := rfl

theorem intRepr_injective : Function.Injective fun z : ℤ => (toString z).data := by
  intro a b h
  cases a with
  | ofNat a =>
    cases b with
    | ofNat b =>
      simp only [intRepr_data_nat] at h
      exact congrArg Int.ofNat (natRepr_injective h)
    | negSucc b =>
      simp only [intRepr_data_nat, intRepr_data_neg] at h
      have hd := natRepr_isDigit a '-' (h ▸ List.mem_cons_self _ _)
      exact absurd hd (by decide)
  | negSucc a =>
    cases b with
    | ofNat b =>
      simp only [intRepr_data_nat, intRepr_data_neg] at h
      have hd := natRepr_isDigit b '-' (h ▸ List.mem_cons_self _ _)
      exact absurd hd (by decide)
    | negSucc b =>
      simp only [intRepr_data_neg, List.cons.injEq, true_and] at h
      have := natRepr_injective h
      simp only [add_left_inj] at this
      rw [this]

theorem intRepr_chars (z : ℤ) : ∀ c ∈ (toString z).data, c.isDigit = true ∨ c = '-' := by
  intro c hc
  cases z with
  | ofNat m => exact Or.inl (natRepr_isDigit m c hc)
  | negSucc m =>
    rw [intRepr_data_neg] at hc
    rcases List.mem_cons.mp hc with h | h
    · exact Or.inr h
    · exact Or.inl (natRepr_isDigit _ c h)

theorem sep_split (s : Char) (a a' b b' : List Char) (ha : s ∉ a) (ha' : s ∉ a')
    (h : a ++ s :: b = a' ++ s :: b') : a = a' ∧ b = b' := by
  induction a generalizing a' with
  | nil =>
    cases a' with
    | nil => simpa using h
    | cons x xs =>
      simp only [List.nil_append, List.cons_append, List.cons.injEq] at h
      exact absurd (List.mem_cons_self _ _) (h.1 ▸ ha')
  | cons y ys ih =>
    cases a' with
    | nil =>
      simp only [List.nil_append, List.cons_append, List.cons.injEq] at h
      exact absurd (List.mem_cons_self _ _) (h.1 ▸ ha)
    | cons x xs =>
      simp only [List.cons_append, List.cons.injEq] at h
      obtain ⟨e1, e2⟩ := ih xs (fun m => ha (List.mem_cons_of_mem _ m))
        (fun m => ha' (List.mem_cons_of_mem _ m)) h.2
      exact ⟨by rw [h.1, e1], e2⟩

theorem writeNumber_data (q : ℚ) :
    (writeNumber q).data =
      if q.den = 1 then (toString q.num).data
      else (toString q.num).data ++ '/' :: (toString q.den).data := by
  unfold writeNumber
  split_ifs <;> simp [String.data_append]

theorem slash_not_mem_int (z : ℤ) : '/' ∉ (toString z).data := by
  intro h
  rcases intRepr_chars z _ h with h | h
  · exact absurd h (by decide)
  · exact absurd h (by decide)

theorem writeNumber_injective : Function.Injective writeNumber := by
  intro p q h
  have hd := congrArg String.data h
  rw [writeNumber_data, writeNumber_data] at hd
  by_cases hp : p.den = 1 <;> by_cases hq : q.den = 1
  · simp only [hp, hq, if_true] at hd
    exact Rat.ext (intRepr_injective hd) (hp.trans hq.symm)
  · simp only [hp, hq, if_true, if_false] at hd
    exact absurd (hd ▸ List.mem_append_right _ (List.mem_cons_self _ _)) (slash_not_mem_int _)
  · simp only [hp, hq, if_true, if_false] at hd
    exact absurd (hd ▸ List.mem_append_right _ (List.mem_cons_self _ _)) (slash_not_mem_int _)
  · simp only [hp, hq, if_false] at hd
    obtain ⟨e1, e2⟩ := sep_split '/' _ _ _ _ (slash_not_mem_int _) (slash_not_mem_int _) hd
    exact Rat.ext (intRepr_injective e1) (natRepr_injective e2)

theorem writeNumber_no_colon (q : ℚ) : ':' ∉ (writeNumber q).data := by
  intro h
  rw [writeNumber_data] at h
  have hint : ∀ z : ℤ, ':' ∉ (toString z).data := by
    intro z hz
    rcases intRepr_chars z _ hz with h | h
    · exact absurd h (by decide)
    · exact absurd h (by decide)
  split_ifs at h
  · exact hint _ h
  · rcases List.mem_append.mp h with h | h
    · exact hint _ h
    · rcases List.mem_cons.mp h with h | h
      · exact absurd h (by decide)
      · exact absurd (natRepr_isDigit _ _ h) (by decide)
/-! ## The claims -/

/-- C1, as the code has it: `bmiMessage` gives each finite value the label of its band,
where the upper ends 24.9, 29.9, 34.9 and 39.9 are the `float64` values nearest to these
decimals, each `1/703687441776640` below its decimal: below 18.5 "Underweight", from 18.5 to
below `float64 24.9` "Normal weight", from 25 to below `float64 29.9` "Overweight", from 30 to
below `float64 34.9` "Obesity class I", from 35 to below `float64 39.9` "Obesity class II",
from 40 on "Obesity class III"; it gives "Invalid BMI" exactly on the four gaps from such an
upper end to below 25, 30, 35 and 40. -/
theorem bmiMessage_table (v : ℚ) :
    (v < 18.5 → bmiMessage v = "Underweight") ∧
    (18.5 ≤ v ∧ v < float64 24.9 → bmiMessage v = "Normal weight") ∧
    (25 ≤ v ∧ v < float64 29.9 → bmiMessage v = "Overweight") ∧
    (30 ≤ v ∧ v < float64 34.9 → bmiMessage v = "Obesity class I") ∧
    (35 ≤ v ∧ v < float64 39.9 → bmiMessage v = "Obesity class II") ∧
    (40 ≤ v → bmiMessage v = "Obesity class III") ∧
    (bmiMessage v = "Invalid BMI" ↔
      (float64 24.9 ≤ v ∧ v < 25) ∨ (float64 29.9 ≤ v ∧ v < 30) ∨
        (float64 34.9 ≤ v ∧ v < 35) ∨ (float64 39.9 ≤ v ∧ v < 40)) ∧
    (float64 24.9 = 24.9 - 1 / 703687441776640 ∧ float64 29.9 = 29.9 - 1 / 703687441776640 ∧
      float64 34.9 = 34.9 - 1 / 703687441776640 ∧
      float64 39.9 = 39.9 - 1 / 703687441776640) := by
  have e249 : float64 24.9 = 24.9 - 1 / 703687441776640 := by rw [float64_24_9]; norm_num
  have e299 : float64 29.9 = 29.9 - 1 / 703687441776640 := by rw [float64_29_9]; norm_num
  have e349 : float64 34.9 = 34.9 - 1 / 703687441776640 := by rw [float64_34_9]; norm_num
  have e399 : float64 39.9 = 39.9 - 1 / 703687441776640 := by rw [float64_39_9]; norm_num
  refine ⟨?_, ?_, ?_, ?_, ?_, ?_, ?_, e249, e299, e349, e399⟩ <;>
    simp only [bmiMessage, float64_18_5, float64_25, float64_30, float64_35, float64_40,
      e249, e299, e349, e399]
  · intro h; simp [h]
  · rintro ⟨h1, h2⟩
    rw [if_neg (by linarith), if_pos ⟨h1, h2⟩]
  · rintro ⟨h1, h2⟩
    rw [if_neg (by linarith), if_neg (by rintro ⟨-, a⟩; linarith), if_pos ⟨h1, h2⟩]
  · rintro ⟨h1, h2⟩
    rw [if_neg (by linarith), if_neg (by rintro ⟨-, a⟩; linarith),
      if_neg (by rintro ⟨-, a⟩; linarith), if_pos ⟨h1, h2⟩]
  · rintro ⟨h1, h2⟩
    rw [if_neg (by linarith), if_neg (by rintro ⟨-, a⟩; linarith),
      if_neg (by rintro ⟨-, a⟩; linarith), if_neg (by rintro ⟨-, a⟩; linarith),
      if_pos ⟨h1, h2⟩]
  · intro h1
    rw [if_neg (by linarith), if_neg (by rintro ⟨-, a⟩; linarith),
      if_neg (by rintro ⟨-, a⟩; linarith), if_neg (by rintro ⟨-, a⟩; linarith),
      if_neg (by rintro ⟨-, a⟩; linarith), if_pos h1]
  · split_ifs with h1 h2 h3 h4 h5 h6
    · refine ⟨fun h => absurd h (by decide), ?_⟩
      rintro (⟨a, b⟩ | ⟨a, b⟩ | ⟨a, b⟩ | ⟨a, b⟩) <;> exfalso <;> linarith
    · refine ⟨fun h => absurd h (by decide), ?_⟩
      rintro (⟨a, b⟩ | ⟨a, b⟩ | ⟨a, b⟩ | ⟨a, b⟩) <;> exfalso <;> linarith [h2.1, h2.2]
    · refine ⟨fun h => absurd h (by decide), ?_⟩
      rintro (⟨a, b⟩ | ⟨a, b⟩ | ⟨a, b⟩ | ⟨a, b⟩) <;> exfalso <;> linarith [h3.1, h3.2]
    · refine ⟨fun h => absurd h (by decide), ?_⟩
      rintro (⟨a, b⟩ | ⟨a, b⟩ | ⟨a, b⟩ | ⟨a, b⟩) <;> exfalso <;> linarith [h4.1, h4.2]
    · refine ⟨fun h => absurd h (by decide), ?_⟩
      rintro (⟨a, b⟩ | ⟨a, b⟩ | ⟨a, b⟩ | ⟨a, b⟩) <;> exfalso <;> linarith [h5.1, h5.2]
    · refine ⟨fun h => absurd h (by decide), ?_⟩
      rintro (⟨a, b⟩ | ⟨a, b⟩ | ⟨a, b⟩ | ⟨a, b⟩) <;> exfalso <;> linarith
    · refine ⟨fun _ => ?_, fun _ => rfl⟩
      have g1 := not_lt.mp h1
      have g6 := not_le.mp h6
      by_cases c1 : v < 25
      · exact Or.inl ⟨not_lt.mp fun c => h2 ⟨g1, c⟩, c1⟩
      · have c1 := not_lt.mp c1
        by_cases c2 : v < 30
        · exact Or.inr (Or.inl ⟨not_lt.mp fun c => h3 ⟨c1, c⟩, c2⟩)
        · have c2 := not_lt.mp c2
          by_cases c3 : v < 35
          · exact Or.inr (Or.inr (Or.inl ⟨not_lt.mp fun c => h4 ⟨c2, c⟩, c3⟩))
          · have c3 := not_lt.mp c3
            exact Or.inr (Or.inr (Or.inr ⟨not_lt.mp fun c => h5 ⟨c3, c⟩, g6⟩))

/-- C1 fails as stated: the `float64` value nearest to 24.9 lies from 18.5 to below 24.9, and
`bmiMessage` gives it "Invalid BMI", not "Normal weight". -/
theorem bmiMessage_below_24_9 :
    F64.round (3504363460047667 / 140737488355328) =
        .fin (3504363460047667 / 140737488355328) ∧
      (18.5 : ℚ) ≤ 3504363460047667 / 140737488355328 ∧
      (3504363460047667 / 140737488355328 : ℚ) < 24.9 ∧
      bmiMessage (3504363460047667 / 140737488355328) = "Invalid BMI" ∧
      ¬ ((24.9 : ℚ) ≤ 3504363460047667 / 140737488355328) := by
  decide!

/-- C2, as the code has it: a parsed request with non-zero weight and height whose cache
lookup yields an error or no value, and whose BMI computed in `float64` arithmetic
(`weight / (heightMeter * heightMeter)` with `heightMeter = height / 100`, each operation
rounded) is finite, is answered with status 200, that BMI and the message `bmiMessage` of
it; weight 70 and height 175 give 22.857142857142858 and "Normal weight", weight 50 and
height 160 give 19.531249999999996 and "Normal weight", each within `10⁻¹⁴` of the exact
quotient. -/
theorem calculateBMI_miss_computes (env : Env) (link : Link) (c : Payload) (w : World)
    (reqBody : BMIRequest) (v : ℚ) (hparse : BodyParser c zeroRequest = .ok reqBody)
    (hw : reqBody.Weight ≠ 0) (hh : reqBody.Height ≠ 0)
    (hmiss : ∀ res, w.redis_client.Get link (cacheKey env reqBody) = .ok res → res = "")
    (hfin : respBMI reqBody = .fin v) :
    (calculateBMI env link c w).2 = .json 200 (.bmi v (bmiMessage v)) ∧
      (reqBody = { Weight := 70, Height := 175 } →
        (calculateBMI env link c w).2 =
            .json 200 (.bmi (6433713753386423 / 281474976710656) "Normal weight") ∧
          |(6433713753386423 / 281474976710656 : ℚ) - 70 / 3.0625| < 1 / 10 ^ 14) ∧
      (reqBody = { Weight := 50, Height := 160 } →
        (calculateBMI env link c w).2 =
            .json 200 (.bmi (5497558138879999 / 281474976710656) "Normal weight") ∧
          |(5497558138879999 / 281474976710656 : ℚ) - 19.53125| < 1 / 10 ^ 14) := by
  have hout : (calculateBMI env link c w).2 = .json 200 (.bmi v (bmiMessage v)) := by
    rw [calculateBMI_of_compute env link c w w reqBody (cacheKey env reqBody)
      ((beforeCompute_valid env link c w reqBody hparse hh hw).trans
        (cacheLookup_noValue env link w reqBody hmiss))]
    exact computeAndStore_finite env link w reqBody _ v hfin
  refine ⟨hout, ?_, ?_⟩
  · intro hreq
    subst hreq
    have hv : respBMI { Weight := 70, Height := 175 } =
        .fin (6433713753386423 / 281474976710656) := by decide!
    have hm : bmiMessage (6433713753386423 / 281474976710656) = "Normal weight" := by decide!
    rw [hv] at hfin
    rw [hout, ← F64.fin.inj hfin, hm]
    exact ⟨rfl, by rw [abs_lt]; norm_num⟩
  · intro hreq
    subst hreq
    have hv : respBMI { Weight := 50, Height := 160 } =
        .fin (5497558138879999 / 281474976710656) := by decide!
    have hm : bmiMessage (5497558138879999 / 281474976710656) = "Normal weight" := by decide!
    rw [hv] at hfin
    rw [hout, ← F64.fin.inj hfin, hm]
    exact ⟨rfl, by rw [abs_lt]; norm_num⟩

/-- Instance of C2 as amended: weight 70, height 175, empty cache. -/
theorem calculateBMI_miss_computes_witness :
    (calculateBMI refEnv ⟨0, false, false⟩ (.object (some 70) (some 175)) ⟨[], []⟩).2 =
      .json 200 (.bmi (6433713753386423 / 281474976710656) "Normal weight") :=
  ((calculateBMI_miss_computes refEnv ⟨0, false, false⟩ (.object (some 70) (some 175)) ⟨[], []⟩
    { Weight := 70, Height := 175 } (6433713753386423 / 281474976710656) rfl (by norm_num)
    (by norm_num) (Get_nil _ _) (by decide!)).2.1 rfl).1

/-- C2 fails as stated: on an empty cache, weight 50 and height 160 are answered with
19.531249999999996, not 19.53125; weight 64 and height 160 with 24.999999999999996 and
"Invalid BMI", while the exact quotient is 25 with the message "Overweight"; weight `2 ^ 1023`
and height 1 overflow, and the answer has status 500. -/
theorem calculateBMI_miss_rounds :
    (calculateBMI refEnv ⟨0, false, false⟩ (.object (some 50) (some 160)) ⟨[], []⟩).2 =
        .json 200 (.bmi (5497558138879999 / 281474976710656) "Normal weight") ∧
      (5497558138879999 / 281474976710656 : ℚ) ≠ 19.53125 ∧
      (calculateBMI refEnv ⟨0, false, false⟩ (.object (some 64) (some 160)) ⟨[], []⟩).2 =
        .json 200 (.bmi (7036874417766399 / 281474976710656) "Invalid BMI") ∧
      (64 : ℚ) / (160 / 100) ^ 2 = 25 ∧ bmiMessage 25 = "Overweight" ∧
      (calculateBMI refEnv ⟨0, false, false⟩ (.object (some (2 ^ 1023)) (some 1))
        ⟨[], []⟩).2.status = some 500 := by
  decide!

/-- C3: bad input is rejected with status 400 and a specific error, height before weight:
an undecodable body gives "Invalid input data"; a decoded body with height 0 gives
"Invalid height" whatever the weight, in particular a body with neither field; a decoded
body with non-zero height and weight 0 gives "Invalid weight". -/
theorem calculateBMI_rejects (env : Env) (link : Link) (w : World) :
    (∀ err, (calculateBMI env link (.undecodable err) w).2 =
        .json 400 (.error "Invalid input data")) ∧
      (∀ c reqBody, BodyParser c zeroRequest = .ok reqBody → reqBody.Height = 0 →
        (calculateBMI env link c w).2 = .json 400 (.error "Invalid height")) ∧
      (calculateBMI env link (.object none none) w).2 = .json 400 (.error "Invalid height") ∧
      (∀ c reqBody, BodyParser c zeroRequest = .ok reqBody → reqBody.Height ≠ 0 →
        reqBody.Weight = 0 →
        (calculateBMI env link c w).2 = .json 400 (.error "Invalid weight")) := by
  refine ⟨?_, ?_, ?_, ?_⟩
  · intro err
    simp [calculateBMI, beforeCompute, BodyParser, StatusBadRequest]
  · intro c reqBody hparse hh
    simp [calculateBMI, beforeCompute, hparse, hh, StatusBadRequest]
  · simp [calculateBMI, beforeCompute, BodyParser, zeroRequest, StatusBadRequest]
  · intro c reqBody hparse hh hw
    simp [calculateBMI, beforeCompute, hparse, hh, hw, StatusBadRequest]

/-- C4: when the lookup returns a non-empty string that deserializes to the number `v`, a
parsed request with non-zero weight and height is answered with status 200, BMI `v` and
message `bmiMessage v`, and the store and the log are left as they were. -/
theorem calculateBMI_hit (env : Env) (link : Link) (c : Payload) (w : World)
    (reqBody : BMIRequest) (res : String) (v : ℚ)
    (hparse : BodyParser c zeroRequest = .ok reqBody)
    (hw : reqBody.Weight ≠ 0) (hh : reqBody.Height ≠ 0)
    (hget : w.redis_client.Get link (cacheKey env reqBody) = .ok res) (hne : res ≠ "")
    (hnum : env.Unmarshal res = .ok (.number v)) :
    calculateBMI env link c w = (w, .json 200 (.bmi v (bmiMessage v))) :=
  calculateBMI_of_done env link c w w _
    ((beforeCompute_valid env link c w reqBody hparse hh hw).trans
      (cacheLookup_number env link w reqBody res v hget hne hnum))

/-- Instance of C4: the key of weight 70, height 175 holds the text `21`. -/
theorem calculateBMI_hit_witness :
    calculateBMI refEnv ⟨10, false, false⟩ (.object (some 70) (some 175))
        ⟨[("bmi:175:70", ⟨"21", 500⟩)], []⟩ =
      (⟨[("bmi:175:70", ⟨"21", 500⟩)], []⟩, .json 200 (.bmi 21 (bmiMessage 21))) :=
  calculateBMI_hit refEnv ⟨10, false, false⟩ (.object (some 70) (some 175))
    ⟨[("bmi:175:70", ⟨"21", 500⟩)], []⟩ { Weight := 70, Height := 175 } "21" 21 rfl
    (by norm_num) (by norm_num) (by rfl) (by decide) (by rfl)

/-- C5: from a store with no entry under the request's key, with the write succeeding, a
request with non-zero weight and height stores the serialized BMI under
`bmi:<height>:<weight>` with a time-to-live of 500 seconds; the same request handled again
before that entry expires is answered from the cache, with the same status, BMI and message
and without a second write, provided the stored text deserializes to the value that was
serialized. -/
theorem calculateBMI_idempotent (env : Env) (link1 link2 : Link) (c : Payload) (w : World)
    (reqBody : BMIRequest) (v : ℚ) (data : String)
    (hparse : BodyParser c zeroRequest = .ok reqBody)
    (hw : reqBody.Weight ≠ 0) (hh : reqBody.Height ≠ 0)
    (hfresh : w.redis_client.lookup (cacheKey env reqBody) = none)
    (hset : link1.setFails = false)
    (hfin : respBMI reqBody = .fin v)
    (hmarshal : env.Marshal (respBMI reqBody) = .ok data)
    (hne : data ≠ "")
    (hround : env.Unmarshal data = .ok (.number v))
    (hget : link2.getFails = false) (hlive : link2.now < link1.now + 500) :
    (calculateBMI env link1 c w).1.redis_client =
        ("bmi:" ++ env.Sprint reqBody.Height ++ ":" ++ env.Sprint reqBody.Weight,
          { value := data, expireAt := link1.now + 500 }) :: w.redis_client ∧
      (calculateBMI env link1 c w).2 = .json 200 (.bmi v (bmiMessage v)) ∧
      (calculateBMI env link2 c (calculateBMI env link1 c w).1).2 =
        (calculateBMI env link1 c w).2 ∧
      (calculateBMI env link2 c (calculateBMI env link1 c w).1).1 =
        (calculateBMI env link1 c w).1 := by
  have hmiss : ∀ res, w.redis_client.Get link1 (cacheKey env reqBody) = .ok res → res = "" := by
    intro res h
    unfold Store.Get at h
    rw [hfresh] at h
    split_ifs at h
  have h1 : calculateBMI env link1 c w =
      computeAndStore env link1 w reqBody (cacheKey env reqBody) :=
    calculateBMI_of_compute env link1 c w w reqBody (cacheKey env reqBody)
      ((beforeCompute_valid env link1 c w reqBody hparse hh hw).trans
        (cacheLookup_noValue env link1 w reqBody hmiss))
  have hstore : (computeAndStore env link1 w reqBody (cacheKey env reqBody)).1 =
      { w with redis_client := (cacheKey env reqBody,
          { value := data, expireAt := link1.now + 500 }) :: w.redis_client } := by
    simp only [computeAndStore, hmarshal, Store.Set, hset, cacheTTL]
    rfl
  have hget2 : (computeAndStore env link1 w reqBody (cacheKey env reqBody)).1.redis_client.Get
      link2 (cacheKey env reqBody) = .ok data := by
    rw [hstore]
    simp [Store.Get, hget, List.lookup, hlive]
  have h2 := calculateBMI_of_done env link2 c _ _ _
    ((beforeCompute_valid env link2 c
        (computeAndStore env link1 w reqBody (cacheKey env reqBody)).1 reqBody hparse hh hw).trans
      (cacheLookup_number env link2 _ reqBody data _ hget2 hne hround))
  rw [h1]
  refine ⟨?_, computeAndStore_finite env link1 w reqBody _ v hfin, ?_, ?_⟩
  · rw [hstore]
    rfl
  · rw [h2, computeAndStore_finite env link1 w reqBody _ v hfin]
    rfl
  · rw [h2]

/-- Instance of C5: weight 20, height 100, empty cache, second request 499 seconds later. -/
theorem calculateBMI_idempotent_witness :
    (calculateBMI refEnv ⟨0, false, false⟩ (.object (some 20) (some 100)) ⟨[], []⟩).1.redis_client =
        [("bmi:" ++ refEnv.Sprint 100 ++ ":" ++ refEnv.Sprint 20,
          { value := "20", expireAt := 0 + 500 })] ∧
      (calculateBMI refEnv ⟨0, false, false⟩ (.object (some 20) (some 100)) ⟨[], []⟩).2 =
        .json 200 (.bmi 20 (bmiMessage 20)) ∧
      (calculateBMI refEnv ⟨499, false, false⟩ (.object (some 20) (some 100))
          (calculateBMI refEnv ⟨0, false, false⟩ (.object (some 20) (some 100)) ⟨[], []⟩).1).2 =
        (calculateBMI refEnv ⟨0, false, false⟩ (.object (some 20) (some 100)) ⟨[], []⟩).2 ∧
      (calculateBMI refEnv ⟨499, false, false⟩ (.object (some 20) (some 100))
          (calculateBMI refEnv ⟨0, false, false⟩ (.object (some 20) (some 100)) ⟨[], []⟩).1).1 =
        (calculateBMI refEnv ⟨0, false, false⟩ (.object (some 20) (some 100)) ⟨[], []⟩).1 :=
  calculateBMI_idempotent refEnv ⟨0, false, false⟩ ⟨499, false, false⟩
    (.object (some 20) (some 100)) ⟨[], []⟩ { Weight := 20, Height := 100 } 20 "20" rfl
    (by norm_num) (by norm_num) rfl rfl (by decide!)
    (by rw [show respBMI { Weight := 20, Height := 100 } = .fin 20 by decide!]; rfl)
    (by decide) (by rfl) rfl (by decide)

/-- C6, as the code has it: the handler answers 400 exactly when the body does not decode, or
height is 0, or weight is 0; a decoded request in which height or weight is negative and both
are non-zero passes validation and, when the lookup yields no value and the BMI computed in
`float64` arithmetic (`weight / (heightMeter * heightMeter)`, `heightMeter = height / 100`,
each operation rounded) is finite, is answered with status 200 and that BMI. -/
theorem calculateBMI_only_zero_rejected (env : Env) (link : Link) (c : Payload) (w : World) :
    ((calculateBMI env link c w).2.status = some 400 ↔
        (∃ err, BodyParser c zeroRequest = .error err) ∨
          ∃ reqBody, BodyParser c zeroRequest = .ok reqBody ∧
            (reqBody.Height = 0 ∨ reqBody.Weight = 0)) ∧
      ∀ reqBody v, BodyParser c zeroRequest = .ok reqBody →
        reqBody.Height ≠ 0 → reqBody.Weight ≠ 0 → reqBody.Height < 0 ∨ reqBody.Weight < 0 →
        (∀ res, w.redis_client.Get link (cacheKey env reqBody) = .ok res → res = "") →
        respBMI reqBody = .fin v →
        beforeCompute env link c w = .compute w reqBody (cacheKey env reqBody) ∧
          (calculateBMI env link c w).2 = .json 200 (.bmi v (bmiMessage v)) := by
  constructor
  · cases hparse : BodyParser c zeroRequest with
    | error err =>
      simp [calculateBMI, beforeCompute, hparse, Outcome.status, StatusBadRequest]
    | ok reqBody =>
      by_cases hh : reqBody.Height = 0
      · simp [calculateBMI, beforeCompute, hparse, hh, Outcome.status, StatusBadRequest]
      · by_cases hw : reqBody.Weight = 0
        · simp [calculateBMI, beforeCompute, hparse, hh, hw, Outcome.status, StatusBadRequest]
        · have hs := cacheLookup_status env link w reqBody
          rw [← beforeCompute_valid env link c w reqBody hparse hh hw] at hs
          constructor
          · intro h
            exact absurd h hs
          · rintro (⟨err, he⟩ | ⟨r, hr, hz⟩)
            · cases he
            · cases hr
              rcases hz with hz | hz
              · exact absurd hz hh
              · exact absurd hz hw
  · intro reqBody v hparse hh hw _ hmiss hfin
    have hb := (beforeCompute_valid env link c w reqBody hparse hh hw).trans
      (cacheLookup_noValue env link w reqBody hmiss)
    refine ⟨hb, ?_⟩
    rw [calculateBMI_of_compute env link c w w reqBody _ hb]
    exact computeAndStore_finite env link w reqBody _ v hfin

/-- Instance of C6 as amended: weight -70, height 175, empty cache. -/
theorem calculateBMI_only_zero_rejected_witness :
    beforeCompute refEnv ⟨0, false, false⟩ (.object (some (-70)) (some 175)) ⟨[], []⟩ =
        .compute ⟨[], []⟩ { Weight := -70, Height := 175 }
          (cacheKey refEnv { Weight := -70, Height := 175 }) ∧
      (calculateBMI refEnv ⟨0, false, false⟩ (.object (some (-70)) (some 175)) ⟨[], []⟩).2 =
        .json 200 (.bmi (-6433713753386423 / 281474976710656)
          (bmiMessage (-6433713753386423 / 281474976710656))) :=
  (calculateBMI_only_zero_rejected refEnv ⟨0, false, false⟩ (.object (some (-70)) (some 175))
    ⟨[], []⟩).2 { Weight := -70, Height := 175 } (-6433713753386423 / 281474976710656) rfl
    (by norm_num) (by norm_num) (Or.inr (by norm_num)) (Get_nil _ _) (by decide!)

/-- C6 fails as stated: on an empty cache, weight -50 and height 160 are answered with
-19.531249999999996, which is not `-50 / (160/100)^2`; weight `-2 ^ 1023` and height 1
overflow, and the answer has status 500. -/
theorem calculateBMI_negative_rounds :
    (calculateBMI refEnv ⟨0, false, false⟩ (.object (some (-50)) (some 160)) ⟨[], []⟩).2 =
        .json 200 (.bmi (-5497558138879999 / 281474976710656) "Underweight") ∧
      (-5497558138879999 / 281474976710656 : ℚ) ≠ -50 / (160 / 100) ^ 2 ∧
      (calculateBMI refEnv ⟨0, false, false⟩ (.object (some (-2 ^ 1023)) (some 1))
        ⟨[], []⟩).2.status = some 500 := by
  decide!

/-- C7, as the code has it: when the handler arrives at the BMI computation, height and
weight are each different from zero. -/
theorem compute_reached_nonzero (env : Env) (link : Link) (c : Payload) (w w1 : World)
    (reqBody : BMIRequest) (key : String)
    (h : beforeCompute env link c w = .compute w1 reqBody key) :
    reqBody.Height ≠ 0 ∧ reqBody.Weight ≠ 0 :=
  have hall := beforeCompute_compute env link c w w1 reqBody key h
  ⟨hall.2.1, hall.2.2.1⟩

/-- Instance of C7 as amended: weight 70, height 175, empty cache. -/
theorem compute_reached_nonzero_witness :
    beforeCompute refEnv ⟨0, false, false⟩ (.object (some 70) (some 175)) ⟨[], []⟩ =
        .compute ⟨[], []⟩ { Weight := 70, Height := 175 }
          (cacheKey refEnv { Weight := 70, Height := 175 }) ∧
      (175 : ℚ) ≠ 0 ∧ (70 : ℚ) ≠ 0 :=
  have h : beforeCompute refEnv ⟨0, false, false⟩ (.object (some 70) (some 175)) ⟨[], []⟩ =
      .compute ⟨[], []⟩ { Weight := 70, Height := 175 }
        (cacheKey refEnv { Weight := 70, Height := 175 }) :=
    (beforeCompute_valid refEnv ⟨0, false, false⟩ (.object (some 70) (some 175)) ⟨[], []⟩
      { Weight := 70, Height := 175 } rfl (by norm_num)
      (by norm_num)).trans (cacheLookup_noValue refEnv _ _ _ (Get_nil _ _))
  ⟨h, compute_reached_nonzero refEnv ⟨0, false, false⟩ (.object (some 70) (some 175)) ⟨[], []⟩
    ⟨[], []⟩ { Weight := 70, Height := 175 } (cacheKey refEnv { Weight := 70, Height := 175 }) h⟩

/-- C7 fails as stated: with weight -70 and height 175 the handler arrives at the BMI
computation although the weight is not greater than zero. -/
theorem compute_reached_negative :
    beforeCompute refEnv ⟨0, false, false⟩ (.object (some (-70)) (some 175)) ⟨[], []⟩ =
        .compute ⟨[], []⟩ { Weight := -70, Height := 175 }
          (cacheKey refEnv { Weight := -70, Height := 175 }) ∧
      ¬ (0 < (175 : ℚ) ∧ 0 < (-70 : ℚ)) :=
  ⟨(beforeCompute_valid refEnv ⟨0, false, false⟩ (.object (some (-70)) (some 175)) ⟨[], []⟩
      { Weight := -70, Height := 175 } rfl (by norm_num)
      (by norm_num)).trans (cacheLookup_noValue refEnv _ _ _ (Get_nil _ _)),
    by norm_num⟩

/-- C8, the part the code keeps: a stored string that `json.Unmarshal` rejects is treated as
a miss, and the handler goes on to the computation. -/
theorem calculateBMI_malformed_cache (env : Env) (link : Link) (c : Payload) (w : World)
    (reqBody : BMIRequest) (res err : String)
    (hparse : BodyParser c zeroRequest = .ok reqBody)
    (hw : reqBody.Weight ≠ 0) (hh : reqBody.Height ≠ 0)
    (hget : w.redis_client.Get link (cacheKey env reqBody) = .ok res)
    (hbad : env.Unmarshal res = .error err) :
    calculateBMI env link c w = computeAndStore env link w reqBody (cacheKey env reqBody) :=
  calculateBMI_of_compute env link c w w reqBody _
    ((beforeCompute_valid env link c w reqBody hparse hh hw).trans
      (cacheLookup_malformed env link w reqBody res err hget hbad))

/-- C8 at the failing input: with the JSON text `true` stored under the key of weight 70 and
height 175, the handler panics in the type assertion instead of computing the value. -/
theorem calculateBMI_cached_bool_crashes :
    calculateBMI refEnv ⟨10, false, false⟩ (.object (some 70) (some 175))
        ⟨[("bmi:175:70", ⟨"true", 500⟩)], []⟩ =
      (⟨[("bmi:175:70", ⟨"true", 500⟩)], []⟩, .crashed) :=
  calculateBMI_of_done refEnv ⟨10, false, false⟩ (.object (some 70) (some 175)) _ _ _
    ((beforeCompute_valid refEnv ⟨10, false, false⟩ (.object (some 70) (some 175))
        ⟨[("bmi:175:70", ⟨"true", 500⟩)], []⟩ { Weight := 70, Height := 175 } rfl
        (by norm_num) (by norm_num)).trans
      (cacheLookup_notNumber refEnv _ _ _ "true" (.bool true) (by rfl) (by decide)
        (by rfl) (fun v h => by cases h)))

/-- C9 at the failing input: weight 20 and height 100 on an empty cache whose write fails
are answered with status 200, BMI 20 and "Normal weight", and the log stays empty: the
failure of `Set` is recorded nowhere. -/
theorem calculateBMI_set_failure_not_logged :
    (⟨0, false, true⟩ : Link).setFails = true ∧
      (calculateBMI refEnv ⟨0, false, true⟩ (.object (some 20) (some 100)) ⟨[], []⟩).2 =
        .json 200 (.bmi 20 "Normal weight") ∧
      (calculateBMI refEnv ⟨0, false, true⟩ (.object (some 20) (some 100)) ⟨[], []⟩).1.log =
        [] := by
  decide!

/-- C10: the key under which the handler reads the cache and under which it writes is
"bmi:", the formatted height, a colon and the formatted weight: a value found under that key
is the one served, and a computed value is stored under it.  When the formatting is injective
and never produces a colon, equal keys come from equal heights and equal weights, so that a
request with another height or weight leaves the cache without an entry for this one. -/
theorem cacheKey_injective (env : Env) (hinj : Function.Injective env.Sprint)
    (hcolon : ∀ x, ':' ∉ (env.Sprint x).data) :
    (∀ link c w reqBody res v, BodyParser c zeroRequest = .ok reqBody →
        reqBody.Height ≠ 0 → reqBody.Weight ≠ 0 →
        w.redis_client.Get link
          ("bmi:" ++ env.Sprint reqBody.Height ++ ":" ++ env.Sprint reqBody.Weight) = .ok res →
        res ≠ "" → env.Unmarshal res = .ok (.number v) →
        calculateBMI env link c w = (w, .json 200 (.bmi v (bmiMessage v)))) ∧
      (∀ link c w reqBody data, BodyParser c zeroRequest = .ok reqBody →
        reqBody.Height ≠ 0 → reqBody.Weight ≠ 0 →
        (∀ res, w.redis_client.Get link
          ("bmi:" ++ env.Sprint reqBody.Height ++ ":" ++ env.Sprint reqBody.Weight) = .ok res →
          res = "") →
        env.Marshal (respBMI reqBody) = .ok data → link.setFails = false →
        (calculateBMI env link c w).1.redis_client =
          ("bmi:" ++ env.Sprint reqBody.Height ++ ":" ++ env.Sprint reqBody.Weight,
            { value := data, expireAt := link.now + 500 }) :: w.redis_client) ∧
      (∀ r1 r2 : BMIRequest, cacheKey env r1 = cacheKey env r2 →
        r1.Height = r2.Height ∧ r1.Weight = r2.Weight) ∧
      (∀ link c w r1 r2, BodyParser c zeroRequest = .ok r1 →
        r1.Height ≠ 0 → r1.Weight ≠ 0 → r1.Height ≠ r2.Height ∨ r1.Weight ≠ r2.Weight →
        w.redis_client.lookup (cacheKey env r2) = none →
        (calculateBMI env link c w).1.redis_client.lookup (cacheKey env r2) = none) := by
  have hkeys : ∀ r1 r2 : BMIRequest, cacheKey env r1 = cacheKey env r2 →
      r1.Height = r2.Height ∧ r1.Weight = r2.Weight := by
    intro r1 r2 hkey
    have h := congrArg String.data hkey
    simp only [cacheKey, String.data_append, List.append_assoc] at h
    have h1 : (env.Sprint r1.Height).data ++ ':' :: (env.Sprint r1.Weight).data =
        (env.Sprint r2.Height).data ++ ':' :: (env.Sprint r2.Weight).data :=
      List.append_cancel_left h
    obtain ⟨e1, e2⟩ := sep_split ':' _ _ _ _ (hcolon _) (hcolon _) h1
    exact ⟨hinj (String.ext e1), hinj (String.ext e2)⟩
  refine ⟨?_, ?_, hkeys, ?_⟩
  · intro link c w reqBody res v hparse hh hw hget hne hnum
    exact calculateBMI_of_done env link c w w _
      ((beforeCompute_valid env link c w reqBody hparse hh hw).trans
        (cacheLookup_number env link w reqBody res v hget hne hnum))
  · intro link c w reqBody data hparse hh hw hmiss hmarshal hset
    rw [calculateBMI_of_compute env link c w w reqBody (cacheKey env reqBody)
      ((beforeCompute_valid env link c w reqBody hparse hh hw).trans
        (cacheLookup_noValue env link w reqBody hmiss))]
    simp only [computeAndStore, hmarshal, Store.Set, hset, cacheTTL]
    rfl
  · intro link c w r1 r2 hparse hh hw hne hfresh
    rcases calculateBMI_store env link c w r1 hparse hh hw with h | ⟨e, h⟩
    · rw [h, hfresh]
    · have hk : cacheKey env r2 ≠ cacheKey env r1 := by
        intro hk
        obtain ⟨e1, e2⟩ := hkeys r2 r1 hk
        rcases hne with hne | hne
        · exact hne e1.symm
        · exact hne e2.symm
      rw [h, List.lookup_cons, beq_false_of_ne hk]
      exact hfresh

/-- Instance of C10: with integers written as Go writes them, the text `30` stored under
`bmi:160:50` is served to weight 50, height 160; the keys of (height 175, weight 70) and
(height 70, weight 175) differ, and handling the first leaves no entry for the second. -/
theorem cacheKey_injective_witness :
    calculateBMI refEnv ⟨10, false, false⟩ (.object (some 50) (some 160))
        ⟨[("bmi:160:50", ⟨"30", 500⟩)], []⟩ =
      (⟨[("bmi:160:50", ⟨"30", 500⟩)], []⟩, .json 200 (.bmi 30 (bmiMessage 30))) ∧
      cacheKey refEnv { Weight := 70, Height := 175 } ≠
        cacheKey refEnv { Weight := 175, Height := 70 } ∧
      (calculateBMI refEnv ⟨0, false, false⟩ (.object (some 70) (some 175))
        ⟨[], []⟩).1.redis_client.lookup (cacheKey refEnv { Weight := 175, Height := 70 }) =
        none :=
  have h := cacheKey_injective refEnv writeNumber_injective writeNumber_no_colon
  ⟨h.1 ⟨10, false, false⟩ (.object (some 50) (some 160)) ⟨[("bmi:160:50", ⟨"30", 500⟩)], []⟩
      { Weight := 50, Height := 160 } "30" 30 rfl (by norm_num) (by norm_num) (by rfl)
      (by decide) (by rfl),
    fun hk => absurd (h.2.2.1 _ _ hk).1 (by norm_num),
    h.2.2.2 ⟨0, false, false⟩ (.object (some 70) (some 175)) ⟨[], []⟩
      { Weight := 70, Height := 175 } { Weight := 175, Height := 70 } rfl (by norm_num)
      (by norm_num) (Or.inl (by norm_num)) rfl⟩

end BMI
